import Mathlib

/-!
# engLearn: the table scraper and the word selector of `main.go`

A shallow embedding of `src/main.go`.

* Go maps `map[string]V` are finite maps with pairwise distinct keys
  (`AList`).  The order of the entries stands for the order in which a
  `range` loop visits the map in the call under study; Go leaves that order
  unspecified, and every theorem below holds for every order.  Maps are
  non-nil throughout: a file whose content is the JSON value `null`, which
  `json.Unmarshal` decodes to a nil map, is outside the model.
* `strings.TrimSpace` and `strconv.Atoi` (64-bit `int`) are modelled on
  lists of characters.
* `rand.Shuffle` is the Fisher-Yates loop of the Go library, driven by an
  arbitrary function `draw` that supplies the random index of every step and
  calling the swap closure of `getRandomWords`.
* Files are abstracted to what the loaders can observe: absent, unreadable,
  malformed, or holding a value.
-/

namespace EngLearn

/-! ## Go maps -/

/-- Go `map[string]V`. -/
abbrev GoMap (V : Type) := AList (fun _ : String => V)

/-- Go `map[string]string`: the body `{word: translation}` of a dictionary entry. -/
abbrev WordMap := GoMap String

/-- Go `map[string]map[string]string`: rank text to body. -/
abbrev WordsDict := GoMap WordMap

/-- Go `map[string]bool`: rank text to the "has been shown" mark. -/
abbrev UsedWords := GoMap Bool

/-- Equality of maps is decided on their entries. -/
instance instDecidableEqGoMap (V : Type) [DecidableEq V] : DecidableEq (GoMap V) :=
  fun a b => decidable_of_iff (a.entries = b.entries) AList.ext_iff.symm

/-- The expression `usedWords[num]` of a `map[string]bool`: `false` when the key is absent. -/
def isUsed (usedWords : UsedWords) (num : String) : Bool :=
  (usedWords.lookup num).getD false

/-- The expression `wordsDict[num]`: the zero value (no entries) when the key is absent. -/
def bodyAt (wordsDict : WordsDict) (num : String) : WordMap :=
  (wordsDict.lookup num).getD ∅

/-! ## Library functions used by the source -/

/-- Go `unicode.IsSpace`. -/
def isSpace (c : Char) : Bool :=
  let n := c.toNat
  (0x09 ≤ n && n ≤ 0x0D) || n == 0x20 || n == 0x85 || n == 0xA0 || n == 0x1680 ||
    (0x2000 ≤ n && n ≤ 0x200A) || n == 0x2028 || n == 0x2029 || n == 0x202F ||
    n == 0x205F || n == 0x3000

/-- Go `strings.TrimSpace`: leading and trailing white space removed. -/
def trimSpace (s : String) : String :=
  ⟨((s.data.dropWhile isSpace).reverse.dropWhile isSpace).reverse⟩

/-- The value of a run of decimal digits, most significant first, on top of
the accumulator; `none` at the first character that is not a digit. -/
def parseDigits : Nat → List Char → Option Nat
  | acc, [] => some acc
  | acc, c :: cs =>
    if 48 ≤ c.toNat ∧ c.toNat ≤ 57 then parseDigits (acc * 10 + (c.toNat - 48)) cs else none

/-- Sign and digits of the text given to `strconv.Atoi`. -/
def splitSign : List Char → Bool × List Char
  | '-' :: cs => (true, cs)
  | '+' :: cs => (false, cs)
  | cs => (false, cs)

/-- Go `strconv.Atoi` with a 64-bit `int`: an optional sign, at least one
decimal digit, nothing else, and a value within the range of `int`;
`none` stands for `err != nil`. -/
def atoi (s : String) : Option Int :=
  match splitSign s.data with
  | (_, []) => none
  | (neg, ds) =>
    match parseDigits 0 ds with
    | none => none
    | some v =>
      if neg then (if v ≤ 2 ^ 63 then some (-(v : Int)) else none)
      else (if v < 2 ^ 63 then some (v : Int) else none)

/-! ## The row loop of `parseSite` (lines 103-134) -/

/-- The variables the row loop of `parseSite` updates. -/
structure ScrapeState where
  wordsDict : WordsDict
  lastTranslation : String
  deriving DecidableEq

/-- The state at line 104: empty dictionary, empty carried translation. -/
def ScrapeState.init : ScrapeState := ⟨∅, ""⟩

/-- The expression `cells.Eq(i).Text()`: the text of cell `i`, the empty
string when the row has no such cell. -/
def cellText (cells : List String) (i : Nat) : String :=
  cells.getD i ""

/-- Lines 116-124: the translation a row resolves to. -/
def resolveTranslation (lastTranslation : String) (cells : List String) : String :=
  if cells.length ≥ 4 then
    let translation := trimSpace (cellText cells 3)
    if translation = "" then lastTranslation else translation
  else if cells.length = 3 then lastTranslation
  else ""

/-- Lines 112-126: the texts `(numStr, word, translation)` of a row when the
test of line 126 succeeds, `none` when the row is left alone. -/
def rowEntry (lastTranslation : String) (cells : List String) :
    Option (String × String × String) :=
  if cells.length ≥ 3 then
    let numStr := trimSpace (cellText cells 0)
    let word := trimSpace (cellText cells 1)
    let translation := resolveTranslation lastTranslation cells
    if (atoi numStr).isSome ∧ word ≠ "" ∧ translation ≠ "" then
      some (numStr, word, translation)
    else none
  else none

/-- Lines 109-132: the body of the row callback. -/
def processRow (st : ScrapeState) (cells : List String) : ScrapeState :=
  match rowEntry st.lastTranslation cells with
  | some (numStr, word, translation) =>
    { lastTranslation := translation
      wordsDict := st.wordsDict.insert numStr ((∅ : WordMap).insert word translation) }
  | none => st

/-- The row loop run over the rows of the page, in document order, from a given state. -/
def processRowsFrom (st : ScrapeState) (rows : List (List String)) : ScrapeState :=
  rows.foldl processRow st

/-- Lines 103-134: the row loop from the initial state. -/
def processRows (rows : List (List String)) : ScrapeState :=
  processRowsFrom ScrapeState.init rows

/-! ## Files, errors and printed messages -/

/-- What the loaders can observe of a JSON file on disk. -/
inductive File (α : Type) where
  /-- `os.ReadFile` fails and `os.IsNotExist` holds of the error. -/
  | missing : File α
  /-- `os.ReadFile` fails for another reason. -/
  | unreadable : File α
  /-- The file is read and `json.Unmarshal` rejects its content. -/
  | malformed : File α
  /-- The file is read and decodes to the value. -/
  | valid (v : α) : File α
  deriving DecidableEq

/-- The error values built by the source, one constructor per `fmt.Errorf`. -/
inductive Err where
  /-- Line 88. -/
  | pageLoad : Err
  /-- Line 93. -/
  | pageStatus : Err
  /-- Line 99. -/
  | pageHtml : Err
  /-- Line 144. -/
  | wordsWrite : Err
  /-- Line 155. -/
  | wordsNotFound : Err
  /-- Line 161. -/
  | wordsJson : Err
  /-- Line 175. -/
  | usedRead : Err
  /-- Line 181. -/
  | usedJson : Err
  /-- Line 196. -/
  | usedWrite : Err
  /-- Line 214: "все слова уже использованы". -/
  | exhausted : Err
  /-- Line 244: the error of `saveUsedWords`, wrapped. -/
  | persist (cause : Err) : Err
  deriving DecidableEq

/-- The lines the program prints, one constructor per print statement. -/
inductive Msg where
  /-- Line 26. -/
  | prompt : Msg
  /-- Line 29. -/
  | inputError : Msg
  /-- Line 36. -/
  | badInput : Msg
  /-- Line 42. -/
  | parseStart : Msg
  /-- Line 45. -/
  | parseError (e : Err) : Msg
  /-- Line 48. -/
  | parseDone : Msg
  /-- Line 147. -/
  | parsedCount (n : Nat) : Msg
  /-- Line 54. -/
  | loadWordsError (e : Err) : Msg
  /-- Line 61. -/
  | loadUsedError (e : Err) : Msg
  /-- Line 220. -/
  | onlyAvailable (n : Nat) : Msg
  /-- Line 68. -/
  | selectError (e : Err) : Msg
  /-- Line 73. -/
  | header : Msg
  /-- Line 76. -/
  | wordLine (num word translation : String) : Msg
  deriving DecidableEq

/-! ## The persistent store (lines 151-200) -/

/-- The function `loadWords`. -/
def loadWords : File WordsDict → Except Err WordsDict
  | File.missing => Except.error Err.wordsNotFound
  | File.unreadable => Except.error Err.wordsNotFound
  | File.malformed => Except.error Err.wordsJson
  | File.valid wordsDict => Except.ok wordsDict

/-- The function `loadUsedWords`. -/
def loadUsedWords : File UsedWords → Except Err UsedWords
  | File.missing => Except.ok ∅
  | File.unreadable => Except.error Err.usedRead
  | File.malformed => Except.error Err.usedJson
  | File.valid usedWords => Except.ok usedWords

/-- The function `saveUsedWords`: the error returned and the file afterwards.
`writeOk` tells whether `os.WriteFile` succeeds; a failed write is taken to
leave the file as it was. -/
def saveUsedWords (writeOk : Bool) (usedFile : File UsedWords) (usedWords : UsedWords) :
    Option Err × File UsedWords :=
  if writeOk then (none, File.valid usedWords) else (some Err.usedWrite, usedFile)

/-! ## The word selector `getRandomWords` (lines 203-248) -/

/-- Lines 205-210: the ranks of the dictionary that are not marked `true`. -/
def unusedNumbers (wordsDict : WordsDict) (usedWords : UsedWords) : List String :=
  wordsDict.keys.filter (fun num => !isUsed usedWords num)

/-- Line 228: the swap closure handed to `rand.Shuffle`. -/
def swap (xs : List String) (i j : Nat) : List String :=
  (xs.set i (xs.getD j "")).set j (xs.getD i "")

/-- The loop of Go's `rand.Shuffle`, `for i := n-1; i > 0; i--`, from index
`i` downwards: each step swaps position `i` with the position `j` in
`[0, i]` that the random source draws. -/
def shuffleFrom (draw : Nat → Nat) : Nat → List String → List String
  | 0, xs => xs
  | i + 1, xs => shuffleFrom draw i (swap xs (i + 1) (draw (i + 1) % (i + 2)))

/-- Lines 227-229: `rand.Shuffle(len(unusedNumbers), swap)`. -/
def shuffle (draw : Nat → Nat) (xs : List String) : List String :=
  shuffleFrom draw (xs.length - 1) xs

/-- Lines 234-239: the selection loop over the ranks it visits. -/
def selectLoop (wordsDict : WordsDict) (nums : List String)
    (selectedWords : WordsDict) (usedWords : UsedWords) : WordsDict × UsedWords :=
  nums.foldl
    (fun acc num => (acc.1.insert num (bodyAt wordsDict num), acc.2.insert num true))
    (selectedWords, usedWords)

/-- What a call of `getRandomWords` leaves behind. -/
structure SelectOutcome where
  /-- The returned pair: `(selectedWords, nil)` or `(nil, err)`. -/
  result : Except Err WordsDict
  /-- The map of the caller after the call (Go maps are shared with the callee). -/
  usedWords : UsedWords
  /-- The file `used_words.json` after the call. -/
  usedFile : File UsedWords
  /-- The lines printed by the call. -/
  out : List Msg

/-- Lines 218-221: the effective batch size. -/
def clampN (available : Nat) (n : Int) : Int :=
  if (available : Int) < n then (available : Int) else n

/-- The function `getRandomWords`. -/
def getRandomWords (draw : Nat → Nat) (writeOk : Bool) (usedFile : File UsedWords)
    (wordsDict : WordsDict) (usedWords : UsedWords) (n : Int) : SelectOutcome :=
  let unused := unusedNumbers wordsDict usedWords
  if unused.length = 0 then
    ⟨Except.error Err.exhausted, usedWords, usedFile, []⟩
  else
    let out := if (unused.length : Int) < n then [Msg.onlyAvailable unused.length] else []
    let n := clampN unused.length n
    let shuffled := shuffle draw unused
    let sel := selectLoop wordsDict (shuffled.take n.toNat) ∅ usedWords
    match saveUsedWords writeOk usedFile sel.2 with
    | (some e, file) => ⟨Except.error (Err.persist e), sel.2, file, out⟩
    | (none, file) => ⟨Except.ok sel.1, sel.2, file, out⟩

/-! ## The orchestrator `main` (lines 22-79) -/

/-- Everything outside the program that a run of `main` depends on. -/
structure World where
  /-- The result of `reader.ReadString`: the line read, `none` on a read error. -/
  stdin : Option String
  /-- The result of lines 86-100 and of the two `Find` calls: the rows the
  nested `Each` loops visit, in order, each as the texts of its cells, or the
  error of lines 88, 93 or 99. -/
  page : Except Err (List (List String))
  /-- The file `words.json` before the run. -/
  wordsFile : File WordsDict
  /-- The file `used_words.json` before the run. -/
  usedFile : File UsedWords
  /-- Whether writing `words.json` succeeds. -/
  wordsWriteOk : Bool
  /-- Whether writing `used_words.json` succeeds. -/
  usedWriteOk : Bool
  /-- The random source of the shuffle. -/
  draw : Nat → Nat

/-- What a run of `main` leaves behind. -/
structure Run where
  /-- The lines printed, in order. -/
  out : List Msg
  /-- The file `words.json` after the run. -/
  wordsFile : File WordsDict
  /-- The file `used_words.json` after the run. -/
  usedFile : File UsedWords

/-- The function `parseSite`: the error returned, `words.json` afterwards and the lines printed. -/
def parseSite (page : Except Err (List (List String))) (writeOk : Bool)
    (wordsFile : File WordsDict) : Option Err × File WordsDict × List Msg :=
  match page with
  | Except.error e => (some e, wordsFile, [])
  | Except.ok rows =>
    let wordsDict := (processRows rows).wordsDict
    if writeOk then (none, File.valid wordsDict, [Msg.parsedCount wordsDict.entries.length])
    else (some Err.wordsWrite, wordsFile, [])

/-- Lines 34-38: the flag read from the trimmed input. -/
def parseFlag (input : String) : Int × List Msg :=
  match atoi input with
  | some 0 => (0, [])
  | some 1 => (1, [])
  | _ => (0, [Msg.badInput])

/-- Lines 74-78: one line per word of every selected rank. -/
def wordLines (randomWords : WordsDict) : List Msg :=
  randomWords.entries.flatMap
    (fun e => e.2.entries.map (fun p => Msg.wordLine e.1 p.1 p.2))

/-- Lines 58-78 of `main`: from loading the used words to the end, given the
lines printed so far, `words.json` as it is now and the dictionary loaded. -/
def mainSelect (w : World) (out : List Msg) (wordsFile : File WordsDict)
    (wordsDict : WordsDict) : Run :=
  let (usedWords, out) :=
    match loadUsedWords w.usedFile with
    | Except.error e => ((∅ : UsedWords), out ++ [Msg.loadUsedError e])
    | Except.ok usedWords => (usedWords, out)
  let r := getRandomWords w.draw w.usedWriteOk w.usedFile wordsDict usedWords 5
  match r.result with
  | Except.error e => ⟨out ++ r.out ++ [Msg.selectError e], wordsFile, r.usedFile⟩
  | Except.ok randomWords =>
    ⟨out ++ r.out ++ [Msg.header] ++ wordLines randomWords, wordsFile, r.usedFile⟩

/-- Lines 51-56 of `main`: the run when it ends here, or else the lines
printed so far, `words.json` as it is now and the dictionary loaded. -/
def mainLoad (w : World) (out : List Msg) (wordsFile : File WordsDict) :
    Run ⊕ (List Msg × File WordsDict × WordsDict) :=
  match loadWords wordsFile with
  | Except.error e => Sum.inl ⟨out ++ [Msg.loadWordsError e], wordsFile, w.usedFile⟩
  | Except.ok wordsDict => Sum.inr (out, wordsFile, wordsDict)

/-- Lines 22-56 of `main`: the run when it ends before line 58, or else the
state in which line 58 is reached. -/
def mainStart (w : World) : Run ⊕ (List Msg × File WordsDict × WordsDict) :=
  match w.stdin with
  | none => Sum.inl ⟨[Msg.prompt, Msg.inputError], w.wordsFile, w.usedFile⟩
  | some input =>
    let flag := parseFlag (trimSpace input)
    let out := Msg.prompt :: flag.2
    if flag.1 = 1 then
      match parseSite w.page w.wordsWriteOk w.wordsFile with
      | (some e, wordsFile, printed) =>
        Sum.inl ⟨out ++ [Msg.parseStart] ++ printed ++ [Msg.parseError e], wordsFile,
          w.usedFile⟩
      | (none, wordsFile, printed) =>
        mainLoad w (out ++ [Msg.parseStart] ++ printed ++ [Msg.parseDone]) wordsFile
    else mainLoad w out w.wordsFile

/-- The function `main`. -/
def main (w : World) : Run :=
  match mainStart w with
  | Sum.inl run => run
  | Sum.inr (out, wordsFile, wordsDict) => mainSelect w out wordsFile wordsDict

/-! ## Notions used to state the properties of the row loop -/

/-- The own translation of a row: the trimmed text of cell 3. -/
def ownTranslation (cells : List String) : String :=
  trimSpace (cellText cells 3)

/-- A row that is accepted with a translation of its own: at least 4 cells,
an integer rank, a non-empty word and a non-empty trimmed cell 3. -/
def suppliesOwn (cells : List String) : Bool :=
  decide (4 ≤ cells.length) && (atoi (trimSpace (cellText cells 0))).isSome &&
    decide (trimSpace (cellText cells 1) ≠ "") && decide (ownTranslation cells ≠ "")

/-- The most recent row of a sequence that was accepted with a translation of its own. -/
def lastSupplier (rows : List (List String)) : Option (List String) :=
  rows.reverse.find? suppliesOwn

/-- The entries `(numStr, word, translation)` written at line 130 while the
row loop runs over the rows, oldest first. -/
def writtenEntries (lastTranslation : String) :
    List (List String) → List (String × String × String)
  | [] => []
  | cells :: rest =>
    match rowEntry lastTranslation cells with
    | some e => e :: writtenEntries e.2.2 rest
    | none => writtenEntries lastTranslation rest

/-! ## Notions used to state the properties of the selector -/

/-- The ranks the selection loop of lines 234-239 visits: the first `n`
(after the clamp) of the shuffled unused ranks, the content of the variable
`selectedNumbers` when the loop ends. -/
def selectedNumbers (draw : Nat → Nat) (wordsDict : WordsDict) (usedWords : UsedWords)
    (n : Int) : List String :=
  (shuffle draw (unusedNumbers wordsDict usedWords)).take
    (clampN (unusedNumbers wordsDict usedWords).length n).toNat

/-- The dictionary of the concrete scenario: ranks "1" and "2". -/
def helloWorld : WordsDict :=
  ((∅ : WordsDict).insert "1" ((∅ : WordMap).insert "hello" "привет")).insert "2"
    ((∅ : WordMap).insert "world" "мир")

/-- A used set that marks both ranks of `helloWorld` true. -/
def bothUsed : UsedWords :=
  ((∅ : UsedWords).insert "1" true).insert "2" true

/-- A used set that marks rank "1" true and rank "2" false. -/
def secondFalse : UsedWords :=
  ((∅ : UsedWords).insert "1" true).insert "2" false

/-- A world whose `used_words.json` is present but malformed, whose
`words.json` holds `helloWorld`, and where the user answers 0. -/
def corruptWorld : World :=
  { stdin := some "0\n"
    page := Except.error Err.pageLoad
    wordsFile := File.valid helloWorld
    usedFile := File.malformed
    wordsWriteOk := true
    usedWriteOk := true
    draw := fun _ => 0 }

/-! ## Properties of the row loop -/

theorem processRows_snoc (before : List (List String)) (cells : List String) :
    processRows (before ++ [cells]) = processRow (processRows before) cells := by
  simp [processRows, processRowsFrom, List.foldl_append]

theorem rowEntry_eq_none_of_atoi (lastTranslation : String) (cells : List String)
    (h : atoi (trimSpace (cellText cells 0)) = none) :
    rowEntry lastTranslation cells = none := by
  unfold rowEntry
  split
  · simp [h]
  · rfl

/-- C7. A row whose trimmed first cell does not parse as an integer is
skipped entirely: the dictionary and the carried translation stay as they
were, whatever the other cells hold. -/
theorem processRow_skips_non_integer_rank (st : ScrapeState) (cells : List String)
    (h : atoi (trimSpace (cellText cells 0)) = none) :
    processRow st cells = st ∧
      (processRow st cells).wordsDict = st.wordsDict ∧
      (processRow st cells).lastTranslation = st.lastTranslation := by
  have hst : processRow st cells = st := by
    unfold processRow
    rw [rowEntry_eq_none_of_atoi _ _ h]
  rw [hst]
  exact ⟨rfl, rfl, rfl⟩

theorem processRow_skips_non_integer_rank_witness :
    atoi (trimSpace (cellText ["x1", "dog", "n", "собака"] 0)) = none ∧
      processRow (processRows [["1", "cat", "n", "кошка"]]) ["x1", "dog", "n", "собака"]
        = processRows [["1", "cat", "n", "кошка"]] :=
  ⟨by decide,
    (processRow_skips_non_integer_rank (processRows [["1", "cat", "n", "кошка"]])
      ["x1", "dog", "n", "собака"] (by decide)).1⟩

theorem resolveTranslation_eq (lastTranslation : String) (cells : List String)
    (h : 3 ≤ cells.length) :
    resolveTranslation lastTranslation cells =
      if 4 ≤ cells.length ∧ ownTranslation cells ≠ "" then ownTranslation cells
      else lastTranslation := by
  unfold resolveTranslation ownTranslation
  by_cases h4 : 4 ≤ cells.length
  · by_cases ho : trimSpace (cellText cells 3) = ""
    · simp [h4, ho]
    · simp [h4, ho]
  · have h3 : cells.length = 3 := by omega
    simp [h3]

theorem processRow_of_rowEntry_some (st : ScrapeState) (cells : List String)
    (numStr word translation : String)
    (h : rowEntry st.lastTranslation cells = some (numStr, word, translation)) :
    processRow st cells =
      ⟨st.wordsDict.insert numStr ((∅ : WordMap).insert word translation), translation⟩ := by
  unfold processRow
  rw [h]

theorem processRow_of_rowEntry_none (st : ScrapeState) (cells : List String)
    (h : rowEntry st.lastTranslation cells = none) : processRow st cells = st := by
  unfold processRow
  rw [h]

/-- C8. A row is accepted, that is the entry `{word: resolved translation}`
is written under the trimmed text of cell 0, exactly when it has at least 3
cells, the trimmed cell 0 parses as an integer, the trimmed cell 1 is not
empty and the resolved translation (the trimmed cell 3 when there are at
least 4 cells and it is not empty, the carried value otherwise) is not
empty; any other row, in particular one with fewer than 3 cells, changes
nothing. -/
theorem row_accepted_iff (st : ScrapeState) (cells : List String) :
    let numStr := trimSpace (cellText cells 0)
    let word := trimSpace (cellText cells 1)
    let resolved :=
      if 4 ≤ cells.length ∧ ownTranslation cells ≠ "" then ownTranslation cells
      else st.lastTranslation
    let ok := 3 ≤ cells.length ∧ (atoi numStr).isSome = true ∧ word ≠ "" ∧ resolved ≠ ""
    ((rowEntry st.lastTranslation cells).isSome = true ↔ ok) ∧
      (ok → rowEntry st.lastTranslation cells = some (numStr, word, resolved) ∧
        processRow st cells =
          ⟨st.wordsDict.insert numStr ((∅ : WordMap).insert word resolved), resolved⟩ ∧
        (processRow st cells).wordsDict.lookup numStr
          = some ((∅ : WordMap).insert word resolved)) ∧
      (¬ ok → rowEntry st.lastTranslation cells = none ∧ processRow st cells = st) ∧
      (cells.length < 3 → processRow st cells = st) := by
  intro numStr word resolved ok
  have hsome : ok → rowEntry st.lastTranslation cells = some (numStr, word, resolved) := by
    rintro ⟨h3, ha, hw, hr⟩
    have h3' : cells.length ≥ 3 := h3
    have hr' : resolveTranslation st.lastTranslation cells = resolved :=
      resolveTranslation_eq _ _ h3
    unfold rowEntry
    simp only [h3', if_true, hr']
    rw [if_pos ⟨ha, hw, hr⟩]
  have hnone : ¬ ok → rowEntry st.lastTranslation cells = none := by
    intro hn
    unfold rowEntry
    by_cases h3 : cells.length ≥ 3
    · have hr' : resolveTranslation st.lastTranslation cells = resolved :=
        resolveTranslation_eq _ _ h3
      simp only [h3, if_true, hr']
      rw [if_neg]
      rintro ⟨ha, hw, hr⟩
      exact hn ⟨h3, ha, hw, hr⟩
    · simp only [h3, if_false]
  refine ⟨?_, ?_, ?_, ?_⟩
  · constructor
    · intro h
      by_contra hn
      rw [hnone hn] at h
      simp at h
    · intro h
      rw [hsome h]
      rfl
  · intro h
    have hp := processRow_of_rowEntry_some st cells _ _ _ (hsome h)
    refine ⟨hsome h, hp, ?_⟩
    rw [hp]
    exact AList.lookup_insert _
  · intro hn
    exact ⟨hnone hn, processRow_of_rowEntry_none st cells (hnone hn)⟩
  · intro hlt
    apply processRow_of_rowEntry_none
    apply hnone
    rintro ⟨h3, -⟩
    omega

theorem row_accepted_iff_witness :
    (rowEntry (processRows [["1", "cat", "n", "кошка"]]).lastTranslation
        [" 2 ", "cats", "n"]).isSome = true ∧
      processRow (processRows [["1", "cat", "n", "кошка"]]) [" 2 ", "cats", "n"] =
        ⟨(processRows [["1", "cat", "n", "кошка"]]).wordsDict.insert "2"
          ((∅ : WordMap).insert "cats" "кошка"), "кошка"⟩ ∧
      processRow (processRows [["1", "cat", "n", "кошка"]]) ["3", "kitten"] =
        processRows [["1", "cat", "n", "кошка"]] :=
  ⟨(row_accepted_iff (processRows [["1", "cat", "n", "кошка"]]) [" 2 ", "cats", "n"]).1.2
      (by decide),
    ((row_accepted_iff (processRows [["1", "cat", "n", "кошка"]]) [" 2 ", "cats", "n"]).2.1
      (by decide)).2.1,
    (row_accepted_iff (processRows [["1", "cat", "n", "кошка"]]) ["3", "kitten"]).2.2.2
      (by decide)⟩

theorem suppliesOwn_iff (cells : List String) :
    suppliesOwn cells = true ↔
      4 ≤ cells.length ∧ (atoi (trimSpace (cellText cells 0))).isSome = true ∧
        trimSpace (cellText cells 1) ≠ "" ∧ ownTranslation cells ≠ "" := by
  unfold suppliesOwn
  rw [Bool.and_eq_true, Bool.and_eq_true, Bool.and_eq_true, decide_eq_true_iff,
    decide_eq_true_iff, decide_eq_true_iff]
  tauto

theorem rowEntry_eq_ite (lastTranslation : String) (cells : List String) :
    rowEntry lastTranslation cells =
      if 3 ≤ cells.length ∧ (atoi (trimSpace (cellText cells 0))).isSome = true ∧
          trimSpace (cellText cells 1) ≠ "" ∧
          (if 4 ≤ cells.length ∧ ownTranslation cells ≠ "" then ownTranslation cells
            else lastTranslation) ≠ "" then
        some (trimSpace (cellText cells 0), trimSpace (cellText cells 1),
          if 4 ≤ cells.length ∧ ownTranslation cells ≠ "" then ownTranslation cells
          else lastTranslation)
      else none := by
  unfold rowEntry
  by_cases h3 : cells.length ≥ 3
  · rw [if_pos h3]
    simp only [resolveTranslation_eq _ _ (show 3 ≤ cells.length from h3)]
    generalize (if 4 ≤ cells.length ∧ ownTranslation cells ≠ "" then ownTranslation cells
            else lastTranslation) = res
    by_cases hc : (atoi (trimSpace (cellText cells 0))).isSome = true ∧
          trimSpace (cellText cells 1) ≠ "" ∧ res ≠ ""
    · rw [if_pos hc, if_pos (And.intro h3 hc)]
    · rw [if_neg hc, if_neg (fun h => hc (And.right h))]
  · rw [if_neg h3, if_neg (fun h => h3 (And.left h))]

theorem processRow_lastTranslation (st : ScrapeState) (cells : List String) :
    (processRow st cells).lastTranslation =
      if suppliesOwn cells = true then ownTranslation cells else st.lastTranslation := by
  have hre := rowEntry_eq_ite st.lastTranslation cells
  by_cases hs : suppliesOwn cells = true
  · rw [if_pos hs]
    obtain ⟨h4, ha, hw, ho⟩ := (suppliesOwn_iff cells).1 hs
    have hres : (if 4 ≤ cells.length ∧ ownTranslation cells ≠ "" then ownTranslation cells
        else st.lastTranslation) = ownTranslation cells := if_pos ⟨h4, ho⟩
    rw [hres] at hre
    have h3 : 3 ≤ cells.length := by omega
    rw [if_pos (And.intro h3 (And.intro ha (And.intro hw ho)))] at hre
    rw [processRow_of_rowEntry_some _ _ _ _ _ hre]
  · rw [if_neg hs]
    by_cases hc : 3 ≤ cells.length ∧ (atoi (trimSpace (cellText cells 0))).isSome = true ∧
          trimSpace (cellText cells 1) ≠ "" ∧
          (if 4 ≤ cells.length ∧ ownTranslation cells ≠ "" then ownTranslation cells
            else st.lastTranslation) ≠ ""
    · rw [if_pos hc] at hre
      rw [processRow_of_rowEntry_some _ _ _ _ _ hre]
      have hown : ¬ (4 ≤ cells.length ∧ ownTranslation cells ≠ "") := fun hown =>
        hs ((suppliesOwn_iff cells).2 ⟨hown.1, hc.2.1, hc.2.2.1, hown.2⟩)
      exact if_neg hown
    · rw [if_neg hc] at hre
      rw [processRow_of_rowEntry_none _ _ hre]

theorem lastSupplier_snoc (before : List (List String)) (cells : List String) :
    lastSupplier (before ++ [cells]) =
      if suppliesOwn cells = true then some cells else lastSupplier before := by
  unfold lastSupplier
  rw [List.reverse_append, List.reverse_singleton, List.singleton_append, List.find?_cons]
  cases suppliesOwn cells <;> simp

theorem lastTranslation_processRows (rows : List (List String)) :
    (processRows rows).lastTranslation = ((lastSupplier rows).map ownTranslation).getD "" := by
  induction rows using List.reverseRecOn with
  | nil => rfl
  | append_singleton before cells ih =>
    rw [processRows_snoc, processRow_lastTranslation, lastSupplier_snoc, ih]
    by_cases hs : suppliesOwn cells = true
    · simp [hs]
    · simp [hs]

theorem ownTranslation_lastSupplier (rows : List (List String)) (r : List String)
    (h : lastSupplier rows = some r) : ownTranslation r ≠ "" := by
  have hs : suppliesOwn r = true := by
    unfold lastSupplier at h
    exact List.find?_some h
  exact ((suppliesOwn_iff r).1 hs).2.2.2

/-- C6. Carry-forward rule of the row loop: the carried value after any
sequence of rows is the own translation of the most recent row accepted with
a translation of its own (empty if there is none); a row with an integer
rank and a non-empty word that has exactly 3 cells, or at least 4 cells and
an empty trimmed cell 3, is stored with that translation, and is rejected
when there is no such earlier row; and the carried value changes only at a
row accepted with a translation of its own. -/
theorem carry_forward (before : List (List String)) (cells : List String) :
    (processRows before).lastTranslation
        = ((lastSupplier before).map ownTranslation).getD "" ∧
      ((atoi (trimSpace (cellText cells 0))).isSome = true →
        trimSpace (cellText cells 1) ≠ "" →
        (cells.length = 3 ∨ (4 ≤ cells.length ∧ ownTranslation cells = "")) →
        (∀ r, lastSupplier before = some r →
          ownTranslation r ≠ "" ∧
          rowEntry (processRows before).lastTranslation cells
            = some (trimSpace (cellText cells 0), trimSpace (cellText cells 1),
                ownTranslation r) ∧
          (processRows (before ++ [cells])).wordsDict.lookup (trimSpace (cellText cells 0))
            = some ((∅ : WordMap).insert (trimSpace (cellText cells 1)) (ownTranslation r)) ∧
          (processRows (before ++ [cells])).lastTranslation = ownTranslation r) ∧
        (lastSupplier before = none →
          rowEntry (processRows before).lastTranslation cells = none ∧
          processRows (before ++ [cells]) = processRows before)) ∧
      ((processRows (before ++ [cells])).lastTranslation
          ≠ (processRows before).lastTranslation →
        suppliesOwn cells = true ∧
        (processRows (before ++ [cells])).lastTranslation = ownTranslation cells) := by
  refine ⟨lastTranslation_processRows before, ?_, ?_⟩
  · intro ha hw hshape
    have h3 : 3 ≤ cells.length := by
      rcases hshape with h | h
      · omega
      · omega
    have hown : ¬ (4 ≤ cells.length ∧ ownTranslation cells ≠ "") := by
      rintro ⟨h4, ho⟩
      rcases hshape with h | h
      · omega
      · exact ho h.2
    have hre := rowEntry_eq_ite (processRows before).lastTranslation cells
    have hres : (if 4 ≤ cells.length ∧ ownTranslation cells ≠ "" then ownTranslation cells
        else (processRows before).lastTranslation) = (processRows before).lastTranslation :=
      if_neg hown
    rw [hres] at hre
    constructor
    · intro r hr
      have hne := ownTranslation_lastSupplier before r hr
      have hlast : (processRows before).lastTranslation = ownTranslation r := by
        rw [lastTranslation_processRows, hr]
        rfl
      have hre2 : rowEntry (processRows before).lastTranslation cells
          = some (trimSpace (cellText cells 0), trimSpace (cellText cells 1),
              ownTranslation r) := by
        rw [hre, if_pos (And.intro h3 (And.intro ha (And.intro hw (hlast ▸ hne)))), hlast]
      have hstep := processRow_of_rowEntry_some _ _ _ _ _ hre2
      refine ⟨hne, hre2, ?_, ?_⟩
      · rw [processRows_snoc, hstep]
        simp only [AList.lookup_insert]
      · rw [processRows_snoc, hstep]
    · intro hnone
      have hlast : (processRows before).lastTranslation = "" := by
        rw [lastTranslation_processRows, hnone]
        rfl
      have hre2 : rowEntry (processRows before).lastTranslation cells = none := by
        rw [hre, hlast]
        exact if_neg (fun h => h.2.2.2 rfl)
      exact ⟨hre2, by rw [processRows_snoc, processRow_of_rowEntry_none _ _ hre2]⟩
  · intro hne
    rw [processRows_snoc, processRow_lastTranslation] at hne ⊢
    by_cases hs : suppliesOwn cells = true
    · exact ⟨hs, if_pos hs⟩
    · rw [if_neg hs] at hne
      exact absurd rfl hne

theorem carry_forward_witness :
    (processRows [["1", "cat", "n", "кошка"], ["2", "cats", "n", ""], ["3", "kitten", "n"]]
        ).wordsDict.lookup "3" = some ((∅ : WordMap).insert "kitten" "кошка") ∧
      (processRows [["1", "cat", "n", "кошка"], ["2", "cats", "n", ""]]
        ).wordsDict.lookup "2" = some ((∅ : WordMap).insert "cats" "кошка") ∧
      (processRows [["1", "cat", "n", "кошка"], ["2", "cats", "n", ""], ["3", "kitten", "n"]]
        ).wordsDict.entries
        = [⟨"3", (∅ : WordMap).insert "kitten" "кошка"⟩,
           ⟨"2", (∅ : WordMap).insert "cats" "кошка"⟩,
           ⟨"1", (∅ : WordMap).insert "cat" "кошка"⟩] ∧
      processRows [["x", "dog", "n", "собака"], ["3", "kitten", "n"]]
        = processRows [["x", "dog", "n", "собака"]] :=
  ⟨(((carry_forward [["1", "cat", "n", "кошка"], ["2", "cats", "n", ""]]
        ["3", "kitten", "n"]).2.1 (by decide) (by decide) (Or.inl (by decide))).1
        ["1", "cat", "n", "кошка"] (by decide)).2.2.1,
    (((carry_forward [["1", "cat", "n", "кошка"]]
        ["2", "cats", "n", ""]).2.1 (by decide) (by decide) (Or.inr (by decide))).1
        ["1", "cat", "n", "кошка"] (by decide)).2.2.1,
    by decide,
    (((carry_forward [["x", "dog", "n", "собака"]]
        ["3", "kitten", "n"]).2.1 (by decide) (by decide) (Or.inl (by decide))).2
        (by decide)).2⟩

theorem processRowsFrom_cons (st : ScrapeState) (cells : List String)
    (rest : List (List String)) :
    processRowsFrom st (cells :: rest) = processRowsFrom (processRow st cells) rest := rfl

/-- The value the row loop leaves at a rank: the body of the last entry
written under that rank, or what the dictionary held before. -/
theorem lookup_processRowsFrom (rows : List (List String)) (st : ScrapeState) (num : String) :
    (processRowsFrom st rows).wordsDict.lookup num =
      match (writtenEntries st.lastTranslation rows).reverse.find? (fun e => decide (e.1 = num)) with
      | some e => some ((∅ : WordMap).insert e.2.1 e.2.2)
      | none => st.wordsDict.lookup num := by
  induction rows generalizing st with
  | nil => rfl
  | cons cells rest ih =>
    rw [processRowsFrom_cons, ih]
    cases hre : rowEntry st.lastTranslation cells with
    | none =>
      rw [processRow_of_rowEntry_none _ _ hre]
      simp only [writtenEntries, hre]
    | some e =>
      obtain ⟨numStr, word, translation⟩ := e
      rw [processRow_of_rowEntry_some _ _ _ _ _ hre]
      simp only [writtenEntries, hre, List.reverse_cons, List.find?_append]
      cases hf : (writtenEntries translation rest).reverse.find? (fun e => decide (e.1 = num)) with
      | some e2 => simp
      | none =>
        by_cases hk : numStr = num
        · subst hk
          simp
        · simp [hk, AList.lookup_insert_ne (Ne.symm hk)]

/-- C9. Last write wins per rank: after the row loop the dictionary has a
key for exactly the rank texts of the accepted rows, each key holds the
single-entry body `{word: translation}` of the last accepted row with that
rank text, and every body of the dictionary has exactly one entry. -/
theorem last_write_wins (rows : List (List String)) :
    (∀ num, num ∈ (processRows rows).wordsDict.keys ↔
        ∃ e ∈ writtenEntries "" rows, e.1 = num) ∧
      (∀ num e,
        (writtenEntries "" rows).reverse.find? (fun x => decide (x.1 = num)) = some e →
        (processRows rows).wordsDict.lookup num
          = some ((∅ : WordMap).insert e.2.1 e.2.2)) ∧
      (∀ num body, (processRows rows).wordsDict.lookup num = some body →
        body.entries.length = 1 ∧
        ∃ e, (writtenEntries "" rows).reverse.find? (fun x => decide (x.1 = num)) = some e ∧
          body = (∅ : WordMap).insert e.2.1 e.2.2) := by
  have key : ∀ num, (processRows rows).wordsDict.lookup num =
      match (writtenEntries "" rows).reverse.find? (fun e => decide (e.1 = num)) with
      | some e => some ((∅ : WordMap).insert e.2.1 e.2.2)
      | none => none := by
    intro num
    have h := lookup_processRowsFrom rows ScrapeState.init num
    exact h
  refine ⟨?_, ?_, ?_⟩
  · intro num
    rw [← AList.mem_keys, ← AList.lookup_isSome, key num]
    cases hf : (writtenEntries "" rows).reverse.find? (fun e => decide (e.1 = num)) with
    | some e =>
      have hmem := List.mem_of_find?_eq_some hf
      have hp := List.find?_some hf
      simp only [decide_eq_true_eq] at hp
      simp only [Option.isSome_some, true_iff]
      exact ⟨e, List.mem_reverse.1 hmem, hp⟩
    | none =>
      simp only [Option.isSome_none, Bool.false_eq_true, false_iff]
      rintro ⟨e, he, hnum⟩
      have hall := List.find?_eq_none.1 hf e (List.mem_reverse.2 he)
      simp only [decide_eq_true_eq] at hall
      exact hall hnum
  · intro num e hf
    rw [key num, hf]
  · intro num body hb
    rw [key num] at hb
    cases hf : (writtenEntries "" rows).reverse.find? (fun e => decide (e.1 = num)) with
    | some e =>
      rw [hf] at hb
      simp only [Option.some.injEq] at hb
      subst hb
      exact ⟨rfl, e, rfl, rfl⟩
    | none =>
      rw [hf] at hb
      exact Option.noConfusion hb

theorem last_write_wins_witness :
    (processRows [["1", "cat", "n", "кошка"], ["1", "dog", "n", "собака"], ["2", "dogs", "n"]]
        ).wordsDict.lookup "1" = some ((∅ : WordMap).insert "dog" "собака") ∧
      ("1" ∈ (processRows [["1", "cat", "n", "кошка"], ["1", "dog", "n", "собака"],
          ["2", "dogs", "n"]]).wordsDict.keys) ∧
      ¬ ("3" ∈ (processRows [["1", "cat", "n", "кошка"], ["1", "dog", "n", "собака"],
          ["2", "dogs", "n"]]).wordsDict.keys) :=
  ⟨(last_write_wins [["1", "cat", "n", "кошка"], ["1", "dog", "n", "собака"],
        ["2", "dogs", "n"]]).2.1 "1" ("1", "dog", "собака") (by decide),
    ((last_write_wins [["1", "cat", "n", "кошка"], ["1", "dog", "n", "собака"],
        ["2", "dogs", "n"]]).1 "1").2 ⟨("1", "dog", "собака"), by decide, rfl⟩,
    fun h => absurd (((last_write_wins [["1", "cat", "n", "кошка"], ["1", "dog", "n", "собака"],
        ["2", "dogs", "n"]]).1 "3").1 h) (by decide)⟩

/-! ## Properties of the shuffle -/

theorem swap_length (xs : List String) (i j : Nat) : (swap xs i j).length = xs.length := by
  simp [swap]

theorem swap_perm (xs : List String) (i j : Nat) (hi : i < xs.length) (hj : j < xs.length) :
    (swap xs i j).Perm xs := by
  rw [List.perm_iff_count]
  intro a
  unfold swap
  rw [List.getD_eq_getElem _ _ hi, List.getD_eq_getElem _ _ hj]
  have hj2 : j < (xs.set i xs[j]).length := by simpa using hj
  rw [List.count_set _ _ _ _ hj2, List.count_set _ _ _ _ hi]
  have hget : (xs.set i xs[j])[j] = xs[j] := by
    rw [List.getElem_set]
    split
    · rfl
    · rfl
  rw [hget]
  have hpos : (if (xs[i] == a) = true then 1 else 0) ≤ List.count a xs := by
    split
    · rename_i h
      have hmem : xs[i] ∈ xs := List.getElem_mem hi
      have : a ∈ xs := by
        have := beq_iff_eq.1 h
        rw [← this]
        exact hmem
      exact List.count_pos_iff.2 this
    · exact Nat.zero_le _
  omega

theorem shuffleFrom_perm (draw : Nat → Nat) (i : Nat) (xs : List String)
    (hi : i < xs.length) : (shuffleFrom draw i xs).Perm xs := by
  induction i generalizing xs with
  | zero => exact List.Perm.refl _
  | succ i ih =>
    unfold shuffleFrom
    have hj : draw (i + 1) % (i + 2) < xs.length := by
      have := Nat.mod_lt (draw (i + 1)) (show i + 2 > 0 by omega)
      omega
    have hlen := swap_length xs (i + 1) (draw (i + 1) % (i + 2))
    exact (ih _ (by omega)).trans (swap_perm xs _ _ hi hj)

theorem shuffle_perm (draw : Nat → Nat) (xs : List String) : (shuffle draw xs).Perm xs := by
  unfold shuffle
  cases xs with
  | nil => exact List.Perm.refl _
  | cons x rest => exact shuffleFrom_perm draw _ _ (by simp)

/-! ## Properties of the selector -/

theorem isUsed_eq_false_iff (usedWords : UsedWords) (num : String) :
    isUsed usedWords num = false ↔ usedWords.lookup num ≠ some true := by
  unfold isUsed
  cases h : usedWords.lookup num with
  | none => simp
  | some b => cases b <;> simp

theorem mem_unusedNumbers (wordsDict : WordsDict) (usedWords : UsedWords) (num : String) :
    num ∈ unusedNumbers wordsDict usedWords ↔
      num ∈ wordsDict.keys ∧ usedWords.lookup num ≠ some true := by
  unfold unusedNumbers
  rw [List.mem_filter, ← isUsed_eq_false_iff]
  simp

theorem unusedNumbers_nodup (wordsDict : WordsDict) (usedWords : UsedWords) :
    (unusedNumbers wordsDict usedWords).Nodup :=
  List.Nodup.sublist (List.filter_sublist _) wordsDict.keys_nodup

theorem length_unusedNumbers (wordsDict : WordsDict) (usedWords : UsedWords) :
    (unusedNumbers wordsDict usedWords).length
      = wordsDict.keys.countP (fun num => decide (usedWords.lookup num ≠ some true)) := by
  unfold unusedNumbers
  rw [List.countP_eq_length_filter]
  congr 1
  apply List.filter_congr
  intro num _
  have h := isUsed_eq_false_iff usedWords num
  cases hu : isUsed usedWords num
  · simp [h.1 hu]
  · have : ¬ usedWords.lookup num ≠ some true := fun hne => by
      rw [h.2 hne] at hu
      exact Bool.noConfusion hu
    simp [this]

theorem selectedNumbers_nodup (draw : Nat → Nat) (wordsDict : WordsDict)
    (usedWords : UsedWords) (n : Int) : (selectedNumbers draw wordsDict usedWords n).Nodup :=
  List.Nodup.sublist (List.take_sublist _ _)
    ((shuffle_perm draw _).nodup_iff.2 (unusedNumbers_nodup wordsDict usedWords))

theorem mem_selectedNumbers (draw : Nat → Nat) (wordsDict : WordsDict)
    (usedWords : UsedWords) (n : Int) (num : String)
    (h : num ∈ selectedNumbers draw wordsDict usedWords n) :
    num ∈ wordsDict.keys ∧ usedWords.lookup num ≠ some true :=
  (mem_unusedNumbers wordsDict usedWords num).1
    ((shuffle_perm draw _).mem_iff.1 (List.mem_of_mem_take h))

theorem length_selectedNumbers (draw : Nat → Nat) (wordsDict : WordsDict)
    (usedWords : UsedWords) (n : Int) :
    (selectedNumbers draw wordsDict usedWords n).length
      = min n.toNat (unusedNumbers wordsDict usedWords).length := by
  unfold selectedNumbers clampN
  rw [List.length_take, (shuffle_perm draw _).length_eq]
  split <;> omega

theorem selectLoop_cons (wordsDict : WordsDict) (num : String) (rest : List String)
    (selectedWords : WordsDict) (usedWords : UsedWords) :
    selectLoop wordsDict (num :: rest) selectedWords usedWords =
      selectLoop wordsDict rest (selectedWords.insert num (bodyAt wordsDict num))
        (usedWords.insert num true) := rfl

theorem lookup_selectLoop_used (wordsDict : WordsDict) (nums : List String)
    (selectedWords : WordsDict) (usedWords : UsedWords) (r : String) :
    (selectLoop wordsDict nums selectedWords usedWords).2.lookup r =
      if r ∈ nums then some true else usedWords.lookup r := by
  induction nums generalizing selectedWords usedWords with
  | nil => simp [selectLoop]
  | cons num rest ih =>
    rw [selectLoop_cons, ih]
    by_cases hr : r ∈ rest
    · simp [hr]
    · by_cases hk : r = num
      · subst hk
        simp [hr]
      · simp [hr, hk, AList.lookup_insert_ne hk]

theorem lookup_selectLoop_selected (wordsDict : WordsDict) (nums : List String)
    (selectedWords : WordsDict) (usedWords : UsedWords) (r : String) :
    (selectLoop wordsDict nums selectedWords usedWords).1.lookup r =
      if r ∈ nums then some (bodyAt wordsDict r) else selectedWords.lookup r := by
  induction nums generalizing selectedWords usedWords with
  | nil => simp [selectLoop]
  | cons num rest ih =>
    rw [selectLoop_cons, ih]
    by_cases hr : r ∈ rest
    · simp [hr]
    · by_cases hk : r = num
      · subst hk
        simp [hr]
      · simp [hr, hk, AList.lookup_insert_ne hk]

theorem mem_keys_selectLoop (wordsDict : WordsDict) (nums : List String)
    (usedWords : UsedWords) (r : String) :
    r ∈ (selectLoop wordsDict nums ∅ usedWords).1.keys ↔ r ∈ nums := by
  rw [← AList.mem_keys, ← AList.lookup_isSome, lookup_selectLoop_selected]
  by_cases hr : r ∈ nums
  · simp [hr]
  · simp [hr]

theorem getRandomWords_exhausted (draw : Nat → Nat) (writeOk : Bool)
    (usedFile : File UsedWords) (wordsDict : WordsDict) (usedWords : UsedWords) (n : Int)
    (h : unusedNumbers wordsDict usedWords = []) :
    getRandomWords draw writeOk usedFile wordsDict usedWords n =
      ⟨Except.error Err.exhausted, usedWords, usedFile, []⟩ := by
  unfold getRandomWords
  simp [h]

theorem getRandomWords_saved (draw : Nat → Nat) (usedFile : File UsedWords)
    (wordsDict : WordsDict) (usedWords : UsedWords) (n : Int)
    (h : unusedNumbers wordsDict usedWords ≠ []) :
    getRandomWords draw true usedFile wordsDict usedWords n =
      ⟨Except.ok
          (selectLoop wordsDict (selectedNumbers draw wordsDict usedWords n) ∅ usedWords).1,
        (selectLoop wordsDict (selectedNumbers draw wordsDict usedWords n) ∅ usedWords).2,
        File.valid
          (selectLoop wordsDict (selectedNumbers draw wordsDict usedWords n) ∅ usedWords).2,
        if ((unusedNumbers wordsDict usedWords).length : Int) < n then
          [Msg.onlyAvailable (unusedNumbers wordsDict usedWords).length] else []⟩ := by
  have hlen : ¬ (unusedNumbers wordsDict usedWords).length = 0 := by
    rwa [List.length_eq_zero]
  unfold getRandomWords
  simp only [hlen, if_false, saveUsedWords, if_true]
  rfl

theorem getRandomWords_not_saved (draw : Nat → Nat) (usedFile : File UsedWords)
    (wordsDict : WordsDict) (usedWords : UsedWords) (n : Int)
    (h : unusedNumbers wordsDict usedWords ≠ []) :
    getRandomWords draw false usedFile wordsDict usedWords n =
      ⟨Except.error (Err.persist Err.usedWrite),
        (selectLoop wordsDict (selectedNumbers draw wordsDict usedWords n) ∅ usedWords).2,
        usedFile,
        if ((unusedNumbers wordsDict usedWords).length : Int) < n then
          [Msg.onlyAvailable (unusedNumbers wordsDict usedWords).length] else []⟩ := by
  have hlen : ¬ (unusedNumbers wordsDict usedWords).length = 0 := by
    rwa [List.length_eq_zero]
  unfold getRandomWords
  simp only [hlen, if_false, saveUsedWords]
  rfl

theorem getRandomWords_ok (draw : Nat → Nat) (writeOk : Bool) (usedFile : File UsedWords)
    (wordsDict : WordsDict) (usedWords : UsedWords) (n : Int) (sel : WordsDict)
    (h : (getRandomWords draw writeOk usedFile wordsDict usedWords n).result = Except.ok sel) :
    writeOk = true ∧ unusedNumbers wordsDict usedWords ≠ [] ∧
      sel = (selectLoop wordsDict (selectedNumbers draw wordsDict usedWords n) ∅ usedWords).1 ∧
      (getRandomWords draw writeOk usedFile wordsDict usedWords n).usedWords
        = (selectLoop wordsDict (selectedNumbers draw wordsDict usedWords n) ∅ usedWords).2 ∧
      (getRandomWords draw writeOk usedFile wordsDict usedWords n).usedFile
        = File.valid
          (selectLoop wordsDict (selectedNumbers draw wordsDict usedWords n) ∅ usedWords).2 := by
  by_cases hu : unusedNumbers wordsDict usedWords = []
  · rw [getRandomWords_exhausted _ _ _ _ _ _ hu] at h
    exact Except.noConfusion h
  · cases writeOk with
    | false =>
      rw [getRandomWords_not_saved _ _ _ _ _ hu] at h
      exact Except.noConfusion h
    | true =>
      rw [getRandomWords_saved _ _ _ _ _ hu] at h ⊢
      simp only [Except.ok.injEq] at h
      exact ⟨rfl, hu, h.symm, rfl, rfl⟩

theorem unusedNumbers_ne_nil_iff (wordsDict : WordsDict) (usedWords : UsedWords) :
    unusedNumbers wordsDict usedWords ≠ [] ↔
      ∃ num ∈ wordsDict.keys, usedWords.lookup num ≠ some true := by
  constructor
  · intro h
    obtain ⟨num, hnum⟩ := List.exists_mem_of_ne_nil _ h
    exact ⟨num, (mem_unusedNumbers _ _ _).1 hnum⟩
  · rintro ⟨num, hk, hu⟩ hnil
    have := (mem_unusedNumbers wordsDict usedWords num).2 ⟨hk, hu⟩
    rw [hnil] at this
    exact List.not_mem_nil _ this

theorem keys_selectLoop_perm (wordsDict : WordsDict) (nums : List String)
    (usedWords : UsedWords) (hn : nums.Nodup) :
    (selectLoop wordsDict nums ∅ usedWords).1.keys.Perm nums :=
  (List.perm_ext_iff_of_nodup (AList.keys_nodup _) hn).2
    (fun r => mem_keys_selectLoop wordsDict nums usedWords r)

/-- C1. Whenever `getRandomWords` returns a selection (which it does exactly
when the write succeeds and some rank of the dictionary is not marked true),
the selected ranks are pairwise distinct ranks of the dictionary that are not
marked true in the used set, each with the body it has in the dictionary,
and their number is the minimum of `n` and the number of ranks of the
dictionary not marked true. -/
theorem selection_sound (draw : Nat → Nat) (writeOk : Bool) (usedFile : File UsedWords)
    (wordsDict : WordsDict) (usedWords : UsedWords) (n : Int) (hn : 0 ≤ n) :
    ((∃ sel, (getRandomWords draw writeOk usedFile wordsDict usedWords n).result
          = Except.ok sel) ↔
        (writeOk = true ∧ ∃ num ∈ wordsDict.keys, usedWords.lookup num ≠ some true)) ∧
      ∀ sel, (getRandomWords draw writeOk usedFile wordsDict usedWords n).result
          = Except.ok sel →
        sel.keys.Nodup ∧
        (∀ num ∈ sel.keys, num ∈ wordsDict.keys ∧ usedWords.lookup num ≠ some true ∧
          sel.lookup num = wordsDict.lookup num) ∧
        (sel.keys.length : Int)
          = min n (wordsDict.keys.countP
              (fun num => decide (usedWords.lookup num ≠ some true)) : Nat) := by
  constructor
  · constructor
    · rintro ⟨sel, h⟩
      obtain ⟨hw, hu, -⟩ := getRandomWords_ok _ _ _ _ _ _ _ h
      exact ⟨hw, (unusedNumbers_ne_nil_iff _ _).1 hu⟩
    · rintro ⟨hw, hex⟩
      subst hw
      have hu := (unusedNumbers_ne_nil_iff _ _).2 hex
      rw [getRandomWords_saved _ _ _ _ _ hu]
      exact ⟨_, rfl⟩
  · intro sel h
    obtain ⟨-, -, hsel, -⟩ := getRandomWords_ok _ _ _ _ _ _ _ h
    subst hsel
    refine ⟨AList.keys_nodup _, ?_, ?_⟩
    · intro num hnum
      have hmem := (mem_keys_selectLoop _ _ _ _).1 hnum
      obtain ⟨hk, hu⟩ := mem_selectedNumbers _ _ _ _ _ hmem
      refine ⟨hk, hu, ?_⟩
      rw [lookup_selectLoop_selected, if_pos hmem]
      unfold bodyAt
      obtain ⟨body, hbody⟩ := Option.isSome_iff_exists.1
        (AList.lookup_isSome.2 (AList.mem_keys.2 hk))
      rw [hbody]
      rfl
    · rw [(keys_selectLoop_perm _ _ _ (selectedNumbers_nodup _ _ _ _)).length_eq,
        length_selectedNumbers, ← length_unusedNumbers]
      have := Int.toNat_of_nonneg hn
      omega

theorem selection_sound_witness :
    (0 : Int) ≤ 5 ∧
      (getRandomWords (fun _ => 0) true File.missing helloWorld ∅ 5).result
        = Except.ok helloWorld ∧
      helloWorld.keys = ["2", "1"] ∧
      ((helloWorld.keys.length : Int)
        = min 5 (helloWorld.keys.countP
            (fun num => decide ((∅ : UsedWords).lookup num ≠ some true)) : Nat)) :=
  ⟨by decide, rfl, rfl,
    ((selection_sound (fun _ => 0) true File.missing helloWorld ∅ 5 (by decide)).2
      helloWorld rfl).2.2⟩

theorem unusedNumbers_eq_nil_iff (wordsDict : WordsDict) (usedWords : UsedWords) :
    unusedNumbers wordsDict usedWords = [] ↔
      ¬ ∃ num ∈ wordsDict.keys, (usedWords.lookup num = none ∨ usedWords.lookup num = some false) := by
  rw [← not_iff_not, not_not]
  rw [show (¬ unusedNumbers wordsDict usedWords = []) ↔ unusedNumbers wordsDict usedWords ≠ []
    from Iff.rfl, unusedNumbers_ne_nil_iff]
  constructor
  · rintro ⟨num, hk, hu⟩
    refine ⟨num, hk, ?_⟩
    cases hl : usedWords.lookup num with
    | none => exact Or.inl rfl
    | some b =>
      cases b with
      | false => exact Or.inr rfl
      | true => exact absurd hl hu
  · rintro ⟨num, hk, hu⟩
    refine ⟨num, hk, ?_⟩
    rcases hu with hu | hu <;> rw [hu] <;> simp

theorem result_ne_exhausted (draw : Nat → Nat) (writeOk : Bool) (usedFile : File UsedWords)
    (wordsDict : WordsDict) (usedWords : UsedWords) (n : Int)
    (h : unusedNumbers wordsDict usedWords ≠ []) :
    (getRandomWords draw writeOk usedFile wordsDict usedWords n).result
      ≠ Except.error Err.exhausted := by
  cases writeOk with
  | false =>
    rw [getRandomWords_not_saved _ _ _ _ _ h]
    intro hc
    simp only [Except.error.injEq] at hc
    exact Err.noConfusion hc
  | true =>
    rw [getRandomWords_saved _ _ _ _ _ h]
    intro hc
    exact Except.noConfusion hc

/-- C2. The call fails with the exhausted error exactly when no rank of the
dictionary is absent from the used set or marked false in it; it does so in
particular when every rank is marked true, and then it returns no
selection, leaves the used set and the file untouched and prints nothing. -/
theorem exhausted_iff (draw : Nat → Nat) (writeOk : Bool) (usedFile : File UsedWords)
    (wordsDict : WordsDict) (usedWords : UsedWords) (n : Int) :
    ((getRandomWords draw writeOk usedFile wordsDict usedWords n).result
          = Except.error Err.exhausted ↔
        ¬ ∃ num ∈ wordsDict.keys,
            (usedWords.lookup num = none ∨ usedWords.lookup num = some false)) ∧
      ((∀ num ∈ wordsDict.keys, usedWords.lookup num = some true) →
        (getRandomWords draw writeOk usedFile wordsDict usedWords n).result
          = Except.error Err.exhausted) ∧
      ((getRandomWords draw writeOk usedFile wordsDict usedWords n).result
          = Except.error Err.exhausted →
        (getRandomWords draw writeOk usedFile wordsDict usedWords n).usedWords = usedWords ∧
        (getRandomWords draw writeOk usedFile wordsDict usedWords n).usedFile = usedFile ∧
        (getRandomWords draw writeOk usedFile wordsDict usedWords n).out = []) := by
  have hfwd : (getRandomWords draw writeOk usedFile wordsDict usedWords n).result
      = Except.error Err.exhausted → unusedNumbers wordsDict usedWords = [] := by
    intro h
    by_contra hne
    exact result_ne_exhausted _ _ _ _ _ _ hne h
  refine ⟨⟨fun h => (unusedNumbers_eq_nil_iff _ _).1 (hfwd h), fun h => ?_⟩, ?_, ?_⟩
  · rw [getRandomWords_exhausted _ _ _ _ _ _ ((unusedNumbers_eq_nil_iff _ _).2 h)]
  · intro hall
    have hnil : unusedNumbers wordsDict usedWords = [] := by
      rw [unusedNumbers_eq_nil_iff]
      rintro ⟨num, hk, hu⟩
      rcases hu with hu | hu <;> rw [hall num hk] at hu <;> simp at hu
    rw [getRandomWords_exhausted _ _ _ _ _ _ hnil]
  · intro h
    rw [getRandomWords_exhausted _ _ _ _ _ _ (hfwd h)]
    exact ⟨rfl, rfl, rfl⟩

theorem exhausted_iff_witness :
    (getRandomWords (fun _ => 0) true File.missing helloWorld bothUsed 5).result
        = Except.error Err.exhausted ∧
      (getRandomWords (fun _ => 0) true File.missing helloWorld bothUsed 5).usedFile
        = File.missing ∧
      (getRandomWords (fun _ => 0) true File.missing helloWorld secondFalse 5).result
        ≠ Except.error Err.exhausted :=
  ⟨(exhausted_iff (fun _ => 0) true File.missing helloWorld bothUsed 5).2.1 (by decide),
    ((exhausted_iff (fun _ => 0) true File.missing helloWorld bothUsed 5).2.2 (by rfl)).2.1,
    fun h => absurd (Exists.intro "2" (And.intro (by decide) (Or.inr (by decide))))
      ((exhausted_iff (fun _ => 0) true File.missing helloWorld secondFalse 5).1.1 h)⟩

/-- C3. A rank selected by a successful call is marked true in the updated
used set, and no later call on the same dictionary with that used set, or
with any used set that still marks the rank true, selects it again,
whatever the batch size, the shuffle and the outcome of the write. -/
theorem no_reselection (draw : Nat → Nat) (writeOk : Bool) (usedFile : File UsedWords)
    (wordsDict : WordsDict) (usedWords : UsedWords) (n : Int) (sel : WordsDict) (R : String)
    (h : (getRandomWords draw writeOk usedFile wordsDict usedWords n).result = Except.ok sel)
    (hR : R ∈ sel.keys) :
    (getRandomWords draw writeOk usedFile wordsDict usedWords n).usedWords.lookup R
        = some true ∧
      (∀ (draw2 : Nat → Nat) (writeOk2 : Bool) (usedFile2 : File UsedWords) (n2 : Int)
          (sel2 : WordsDict),
        (getRandomWords draw2 writeOk2 usedFile2 wordsDict
            (getRandomWords draw writeOk usedFile wordsDict usedWords n).usedWords n2).result
          = Except.ok sel2 → R ∉ sel2.keys) ∧
      (∀ (later : UsedWords) (draw2 : Nat → Nat) (writeOk2 : Bool)
          (usedFile2 : File UsedWords) (n2 : Int) (sel2 : WordsDict),
        later.lookup R = some true →
        (getRandomWords draw2 writeOk2 usedFile2 wordsDict later n2).result = Except.ok sel2 →
        R ∉ sel2.keys) := by
  have hgen : ∀ (later : UsedWords) (draw2 : Nat → Nat) (writeOk2 : Bool)
      (usedFile2 : File UsedWords) (n2 : Int) (sel2 : WordsDict),
      later.lookup R = some true →
      (getRandomWords draw2 writeOk2 usedFile2 wordsDict later n2).result = Except.ok sel2 →
      R ∉ sel2.keys := by
    intro later draw2 writeOk2 usedFile2 n2 sel2 hl h2 hmem
    obtain ⟨-, -, hsel2, -⟩ := getRandomWords_ok _ _ _ _ _ _ _ h2
    subst hsel2
    exact (mem_selectedNumbers _ _ _ _ _ ((mem_keys_selectLoop _ _ _ _).1 hmem)).2 hl
  obtain ⟨-, -, hsel, hused, -⟩ := getRandomWords_ok _ _ _ _ _ _ _ h
  subst hsel
  have hmark : (getRandomWords draw writeOk usedFile wordsDict usedWords n).usedWords.lookup R
      = some true := by
    rw [hused, lookup_selectLoop_used, if_pos ((mem_keys_selectLoop _ _ _ _).1 hR)]
  exact ⟨hmark, fun draw2 writeOk2 usedFile2 n2 sel2 h2 =>
    hgen _ draw2 writeOk2 usedFile2 n2 sel2 hmark h2, hgen⟩

theorem no_reselection_witness :
    (getRandomWords (fun _ => 0) true File.missing helloWorld ∅ 1).result
        = Except.ok ((∅ : WordsDict).insert "1" ((∅ : WordMap).insert "hello" "привет")) ∧
      (getRandomWords (fun _ => 0) true File.missing helloWorld ∅ 1).usedWords.lookup "1"
        = some true ∧
      (getRandomWords (fun _ => 1) true File.missing helloWorld
          (getRandomWords (fun _ => 0) true File.missing helloWorld ∅ 1).usedWords 5).result
        = Except.ok ((∅ : WordsDict).insert "2" ((∅ : WordMap).insert "world" "мир")) ∧
      ¬ ("1" ∈ ((∅ : WordsDict).insert "2" ((∅ : WordMap).insert "world" "мир")).keys) :=
  ⟨rfl,
    (no_reselection (fun _ => 0) true File.missing helloWorld ∅ 1
      ((∅ : WordsDict).insert "1" ((∅ : WordMap).insert "hello" "привет")) "1" rfl
      (by decide)).1,
    rfl,
    (no_reselection (fun _ => 0) true File.missing helloWorld ∅ 1
      ((∅ : WordsDict).insert "1" ((∅ : WordMap).insert "hello" "привет")) "1" rfl
      (by decide)).2.1 (fun _ => 1) true File.missing 5
      ((∅ : WordsDict).insert "2" ((∅ : WordMap).insert "world" "мир")) rfl⟩

/-- C4. After a successful call the used set differs from the one before
only on the selected ranks: every selected rank is marked true, every rank
marked true before is still marked true, and every rank that was not
selected has the same presence and value as before. -/
theorem used_set_frame (draw : Nat → Nat) (writeOk : Bool) (usedFile : File UsedWords)
    (wordsDict : WordsDict) (usedWords : UsedWords) (n : Int) (sel : WordsDict)
    (h : (getRandomWords draw writeOk usedFile wordsDict usedWords n).result = Except.ok sel) :
    (∀ num ∈ sel.keys,
        (getRandomWords draw writeOk usedFile wordsDict usedWords n).usedWords.lookup num
          = some true) ∧
      (∀ num, usedWords.lookup num = some true →
        (getRandomWords draw writeOk usedFile wordsDict usedWords n).usedWords.lookup num
          = some true) ∧
      (∀ num, num ∉ sel.keys →
        (getRandomWords draw writeOk usedFile wordsDict usedWords n).usedWords.lookup num
          = usedWords.lookup num) ∧
      (getRandomWords draw writeOk usedFile wordsDict usedWords n).usedFile
        = File.valid (getRandomWords draw writeOk usedFile wordsDict usedWords n).usedWords := by
  obtain ⟨-, -, hsel, hused, hfile⟩ := getRandomWords_ok _ _ _ _ _ _ _ h
  subst hsel
  rw [hfile, hused]
  refine ⟨?_, ?_, ?_, rfl⟩
  · intro num hnum
    rw [lookup_selectLoop_used, if_pos ((mem_keys_selectLoop _ _ _ _).1 hnum)]
  · intro num hnum
    rw [lookup_selectLoop_used]
    split
    · rfl
    · exact hnum
  · intro num hnum
    rw [lookup_selectLoop_used, if_neg (fun hm => hnum ((mem_keys_selectLoop _ _ _ _).2 hm))]

theorem used_set_frame_witness :
    (getRandomWords (fun _ => 0) true File.missing helloWorld
        ((∅ : UsedWords).insert "9" false) 1).result
        = Except.ok ((∅ : WordsDict).insert "1" ((∅ : WordMap).insert "hello" "привет")) ∧
      (getRandomWords (fun _ => 0) true File.missing helloWorld
        ((∅ : UsedWords).insert "9" false) 1).usedWords.lookup "9" = some false ∧
      (getRandomWords (fun _ => 0) true File.missing helloWorld
        ((∅ : UsedWords).insert "9" false) 1).usedWords.lookup "2" = none ∧
      (getRandomWords (fun _ => 0) true File.missing helloWorld
        ((∅ : UsedWords).insert "9" false) 1).usedWords.lookup "1" = some true :=
  ⟨rfl,
    ((used_set_frame (fun _ => 0) true File.missing helloWorld
      ((∅ : UsedWords).insert "9" false) 1
      ((∅ : WordsDict).insert "1" ((∅ : WordMap).insert "hello" "привет")) rfl).2.2.1 "9"
      (by decide)).trans (by decide),
    ((used_set_frame (fun _ => 0) true File.missing helloWorld
      ((∅ : UsedWords).insert "9" false) 1
      ((∅ : WordsDict).insert "1" ((∅ : WordMap).insert "hello" "привет")) rfl).2.2.1 "2"
      (by decide)).trans (by decide),
    (used_set_frame (fun _ => 0) true File.missing helloWorld
      ((∅ : UsedWords).insert "9" false) 1
      ((∅ : WordsDict).insert "1" ((∅ : WordMap).insert "hello" "привет")) rfl).1 "1"
      (by decide)⟩

/-- C5, as the code has it. When some rank of the dictionary is not marked
true and the write fails, the call fails with the persist error and returns
no selection, but the marks made by the selection loop stay in the map of the
caller: the used set after the call is the one before with the picked ranks,
`min(n, unused)` pairwise distinct unused ranks of the dictionary, marked
true; for `n ≥ 1` it differs from the used set before the call. -/
theorem persist_failure_keeps_marks (draw : Nat → Nat) (usedFile : File UsedWords)
    (wordsDict : WordsDict) (usedWords : UsedWords) (n : Int)
    (h : ∃ num ∈ wordsDict.keys, usedWords.lookup num ≠ some true) :
    (getRandomWords draw false usedFile wordsDict usedWords n).result
        = Except.error (Err.persist Err.usedWrite) ∧
      (∀ num, (getRandomWords draw false usedFile wordsDict usedWords n).usedWords.lookup num
        = if num ∈ selectedNumbers draw wordsDict usedWords n then some true
          else usedWords.lookup num) ∧
      (selectedNumbers draw wordsDict usedWords n).Nodup ∧
      (∀ num ∈ selectedNumbers draw wordsDict usedWords n,
        num ∈ wordsDict.keys ∧ usedWords.lookup num ≠ some true) ∧
      (selectedNumbers draw wordsDict usedWords n).length
        = min n.toNat (wordsDict.keys.countP
            (fun num => decide (usedWords.lookup num ≠ some true))) ∧
      (1 ≤ n → ∃ num, usedWords.lookup num ≠ some true ∧
        (getRandomWords draw false usedFile wordsDict usedWords n).usedWords.lookup num
          = some true) := by
  have hu := (unusedNumbers_ne_nil_iff _ _).2 h
  have hlen := length_selectedNumbers draw wordsDict usedWords n
  rw [getRandomWords_not_saved _ _ _ _ _ hu]
  refine ⟨rfl, fun num => lookup_selectLoop_used _ _ _ _ _, selectedNumbers_nodup _ _ _ _,
    fun num hnum => mem_selectedNumbers _ _ _ _ _ hnum, ?_, ?_⟩
  · rw [hlen, length_unusedNumbers]
  · intro hn
    have hpos : 0 < (unusedNumbers wordsDict usedWords).length :=
      List.length_pos.2 hu
    have hsel : selectedNumbers draw wordsDict usedWords n ≠ [] := by
      intro hnil
      rw [hnil] at hlen
      simp only [List.length_nil] at hlen
      omega
    obtain ⟨num, hnum⟩ := List.exists_mem_of_ne_nil _ hsel
    refine ⟨num, (mem_selectedNumbers _ _ _ _ _ hnum).2, ?_⟩
    show (selectLoop wordsDict (selectedNumbers draw wordsDict usedWords n) ∅
      usedWords).2.lookup num = some true
    rw [lookup_selectLoop_used, if_pos hnum]

theorem persist_failure_keeps_marks_witness :
    (getRandomWords (fun _ => 0) false File.missing helloWorld ∅ 5).result
        = Except.error (Err.persist Err.usedWrite) ∧
      selectedNumbers (fun _ => 0) helloWorld ∅ 5 = ["1", "2"] ∧
      (getRandomWords (fun _ => 0) false File.missing helloWorld ∅ 5).usedWords.lookup "2"
        = some true :=
  ⟨(persist_failure_keeps_marks (fun _ => 0) File.missing helloWorld ∅ 5
      ⟨"1", by decide, by decide⟩).1,
    by decide,
    ((persist_failure_keeps_marks (fun _ => 0) File.missing helloWorld ∅ 5
      ⟨"1", by decide, by decide⟩).2.1 "2").trans (by decide)⟩

/-- C5, refuted as stated. With the dictionary of ranks "1" and "2", an
empty used set and a failing write, the call returns the persist error and
the used set of the caller is no longer the empty one it was before: both
ranks are marked true. -/
theorem persist_failure_not_rolled_back :
    (∃ num ∈ helloWorld.keys, (∅ : UsedWords).lookup num ≠ some true) ∧
      (getRandomWords (fun _ => 0) false File.missing helloWorld ∅ 5).result
        = Except.error (Err.persist Err.usedWrite) ∧
      (getRandomWords (fun _ => 0) false File.missing helloWorld ∅ 5).usedWords
        ≠ (∅ : UsedWords) ∧
      (getRandomWords (fun _ => 0) false File.missing helloWorld ∅ 5).usedWords = bothUsed :=
  ⟨⟨"1", by decide, by decide⟩, rfl, by decide, by decide⟩

/-! ## Properties of the orchestrator -/

theorem unusedNumbers_empty_used (wordsDict : WordsDict) :
    unusedNumbers wordsDict ∅ = wordsDict.keys := by
  unfold unusedNumbers
  apply List.filter_eq_self.2
  intro num _
  simp [isUsed, AList.lookup_empty]

theorem main_of_reach (w : World) (out : List Msg) (wordsFile : File WordsDict)
    (wordsDict : WordsDict) (hreach : mainStart w = Sum.inr (out, wordsFile, wordsDict)) :
    main w = mainSelect w out wordsFile wordsDict := by
  unfold main
  rw [hreach]

theorem mainSelect_malformed (w : World) (out : List Msg) (wordsFile : File WordsDict)
    (wordsDict : WordsDict) (hused : w.usedFile = File.malformed) :
    mainSelect w out wordsFile wordsDict =
      match (getRandomWords w.draw w.usedWriteOk File.malformed wordsDict ∅ 5).result with
      | Except.error e =>
        ⟨out ++ [Msg.loadUsedError Err.usedJson]
            ++ (getRandomWords w.draw w.usedWriteOk File.malformed wordsDict ∅ 5).out
            ++ [Msg.selectError e], wordsFile,
          (getRandomWords w.draw w.usedWriteOk File.malformed wordsDict ∅ 5).usedFile⟩
      | Except.ok randomWords =>
        ⟨out ++ [Msg.loadUsedError Err.usedJson]
            ++ (getRandomWords w.draw w.usedWriteOk File.malformed wordsDict ∅ 5).out
            ++ [Msg.header] ++ wordLines randomWords, wordsFile,
          (getRandomWords w.draw w.usedWriteOk File.malformed wordsDict ∅ 5).usedFile⟩ := by
  unfold mainSelect
  rw [hused]
  rfl

/-- C10, as the code has it. When `main` reaches line 58 and
`used_words.json` is present but malformed, the failure of `loadUsedWords` is
reported and the run goes on with a fresh empty used set: `getRandomWords` is
called with it, and when the dictionary has a rank and the write succeeds,
`min(5, ranks)` words are selected and printed and `used_words.json` is
overwritten with exactly the selected ranks marked true. -/
theorem corrupt_used_file_not_terminal (w : World) (out : List Msg)
    (wordsFile : File WordsDict) (wordsDict : WordsDict)
    (hused : w.usedFile = File.malformed)
    (hreach : mainStart w = Sum.inr (out, wordsFile, wordsDict)) :
    loadUsedWords w.usedFile = Except.error Err.usedJson ∧
      (main w).usedFile
        = (getRandomWords w.draw w.usedWriteOk File.malformed wordsDict ∅ 5).usedFile ∧
      (∀ e, (getRandomWords w.draw w.usedWriteOk File.malformed wordsDict ∅ 5).result
          = Except.error e →
        (main w).out = out ++ [Msg.loadUsedError Err.usedJson]
          ++ (getRandomWords w.draw w.usedWriteOk File.malformed wordsDict ∅ 5).out
          ++ [Msg.selectError e]) ∧
      (∀ sel, (getRandomWords w.draw w.usedWriteOk File.malformed wordsDict ∅ 5).result
          = Except.ok sel →
        (main w).out = out ++ [Msg.loadUsedError Err.usedJson]
          ++ (getRandomWords w.draw w.usedWriteOk File.malformed wordsDict ∅ 5).out
          ++ [Msg.header] ++ wordLines sel) ∧
      (w.usedWriteOk = true → wordsDict.keys ≠ [] →
        ∃ sel used,
          (getRandomWords w.draw w.usedWriteOk File.malformed wordsDict ∅ 5).result
            = Except.ok sel ∧
          sel.keys.length = min 5 wordsDict.keys.length ∧
          (∀ num ∈ sel.keys, sel.lookup num = wordsDict.lookup num) ∧
          (main w).usedFile = File.valid used ∧
          (∀ num, used.lookup num = if num ∈ sel.keys then some true else none)) := by
  rw [main_of_reach w out wordsFile wordsDict hreach,
    mainSelect_malformed w out wordsFile wordsDict hused]
  refine ⟨by rw [hused]; rfl, ?_, ?_, ?_, ?_⟩
  · cases (getRandomWords w.draw w.usedWriteOk File.malformed wordsDict ∅ 5).result <;> rfl
  · intro e he
    rw [he]
  · intro sel hsel
    rw [hsel]
  · intro hw hkeys
    have hu : unusedNumbers wordsDict ∅ ≠ [] := by
      rw [unusedNumbers_empty_used]
      exact hkeys
    rw [hw, getRandomWords_saved _ _ _ _ _ hu]
    refine ⟨_, _, rfl, ?_, ?_, rfl, ?_⟩
    · rw [(keys_selectLoop_perm _ _ _ (selectedNumbers_nodup _ _ _ _)).length_eq,
        length_selectedNumbers, unusedNumbers_empty_used]
      rfl
    · intro num hnum
      have hmem := (mem_keys_selectLoop _ _ _ _).1 hnum
      obtain ⟨hk, -⟩ := mem_selectedNumbers _ _ _ _ _ hmem
      rw [lookup_selectLoop_selected, if_pos hmem]
      unfold bodyAt
      obtain ⟨body, hbody⟩ := Option.isSome_iff_exists.1
        (AList.lookup_isSome.2 (AList.mem_keys.2 hk))
      rw [hbody]
      rfl
    · intro num
      rw [lookup_selectLoop_used, AList.lookup_empty]
      by_cases hm : num ∈ selectedNumbers w.draw wordsDict ∅ 5
      · rw [if_pos hm, if_pos ((mem_keys_selectLoop _ _ _ _).2 hm)]
      · rw [if_neg hm, if_neg (fun hk => hm ((mem_keys_selectLoop _ _ _ _).1 hk))]

theorem corrupt_used_file_not_terminal_witness :
    loadUsedWords corruptWorld.usedFile = Except.error Err.usedJson ∧
      (main corruptWorld).usedFile
        = (getRandomWords corruptWorld.draw corruptWorld.usedWriteOk File.malformed
            helloWorld ∅ 5).usedFile :=
  ⟨(corrupt_used_file_not_terminal corruptWorld [Msg.prompt] (File.valid helloWorld)
      helloWorld rfl (by rfl)).1,
    (corrupt_used_file_not_terminal corruptWorld [Msg.prompt] (File.valid helloWorld)
      helloWorld rfl (by rfl)).2.1⟩

/-- C10, refuted as stated. With a malformed `used_words.json`, the
dictionary of ranks "1" and "2" and the answer 0, `loadUsedWords` fails, and
yet the run selects both words, prints them and overwrites `used_words.json`. -/
theorem corrupt_used_file_run_continues :
    corruptWorld.usedFile = File.malformed ∧
      loadUsedWords corruptWorld.usedFile = Except.error Err.usedJson ∧
      (main corruptWorld).out
        = [Msg.prompt, Msg.loadUsedError Err.usedJson, Msg.onlyAvailable 2, Msg.header,
            Msg.wordLine "2" "world" "мир", Msg.wordLine "1" "hello" "привет"] ∧
      (main corruptWorld).usedFile = File.valid bothUsed :=
  ⟨rfl, rfl, by decide, by decide⟩

end EngLearn
